import Mathlib

/-!
Verification of the ClogsServer processor framework.

This file shallowly embeds the parts of the ClogsServer repository that the
specification's claims talk about:

* the interception layer `ProcessorSession.add/get/delete` together with
  `ProcessorSession._run_processor_hook` (src/database.py),
* the interval scheduler `ProcessorManager._execute_processor_interval` and
  `_run_processor_loop` (src/processors/manager.py),
* the loading pass `ProcessorManager.load_all` / `load_processors`
  (src/processors/manager.py, src/processors/__init__.py),
* `ProcessorManager.shutdown` and `Processor.close`,
* the `LogCompressorProcessor.on_insert` deduplication algorithm
  (src/processors/incremental/log_compressor.py),
* the `HeartbeatProcessor.on_interval` liveness pass
  (src/processors/analytical/heartbeat.py),
* the uptime-accounting step of `UptimeProcessor.on_interval_each`
  (src/processors/analytical/uptime.py).

Machine integers are modelled as `Nat`/`Int`, wall-clock times as `ℚ`,
Python exceptions as `Except`/explicit error flags, and the SQL store as
lists of rows.  Each definition is a direct translation of the Python
control flow it names.
-/

namespace Clogs

/-- Runtime type tags for entities, standing for the Python classes the code
dispatches on (`type(instance)` and `isinstance` checks).  `noneType` stands
for Python's `NoneType`, which is what `get_output_type` returns for a
processor declared `Processor[X, NoneType]`. -/
inductive TypeTag
  | log
  | container
  | heartbeat
  | agent
  | noneType
  | other (n : Nat)
deriving DecidableEq, Repr

/-- An entity instance: a runtime type tag plus an abstract payload
identity, enough to observe which object flows through the hooks. -/
structure Entity where
  tag : TypeTag
  val : Nat
deriving DecidableEq, Repr

/-- A processor as seen by the interception layer: an identity (for
observing invocation order), the declared output type as returned by
`ProcessorManager.get_output_type` (`none` models Python `None`, i.e. the
generic arguments were undeterminable), and the incremental hook being
dispatched (`on_insert`/`on_get`/`on_delete`), modelled as a function that
either raises (`Except.error`) or returns `Optional[Entity]`. -/
structure IProc where
  pid : Nat
  outputType : Option TypeTag
  hook : Entity → Except Unit (Option Entity)

/-- Log events emitted by `_run_processor_hook`'s `logger.error` calls. -/
inductive HookLog
  | hookError (pid : Nat)
  | unexpectedValue (pid : Nat)
  | typeMismatch (pid : Nat)
deriving DecidableEq, Repr

/-- The observable outcome of `ProcessorSession._run_processor_hook`: the
returned value (`none` models Python `None`), the error-log entries, and
the ordered list of processor ids whose hooks were actually invoked. -/
structure HookOutcome where
  result : Option Entity
  logs : List HookLog
  invoked : List Nat
deriving DecidableEq, Repr

/-- Translation of the loop body of `ProcessorSession._run_processor_hook`
(src/database.py lines 32-60).  For each processor in registration order the
hook is called; a raised exception or a contract violation is caught by the
inner `except`, logged, and the loop continues; every non-raising branch
`return`s immediately.  Falling out of the loop returns Python `None`. -/
def runProcessorHook : List IProc → Entity → HookOutcome
  | [], _ => ⟨none, [], []⟩
  | p :: ps, inst =>
    match p.hook inst with
    | .error _ =>
      let o := runProcessorHook ps inst
      ⟨o.result, .hookError p.pid :: o.logs, p.pid :: o.invoked⟩
    | .ok post =>
      match p.outputType, post with
      | none, none => ⟨some inst, [], [p.pid]⟩
      | none, some _ =>
        let o := runProcessorHook ps inst
        ⟨o.result, .unexpectedValue p.pid :: o.logs, p.pid :: o.invoked⟩
      | some _, none => ⟨none, [], [p.pid]⟩
      | some t, some q =>
        if q.tag = t then ⟨some q, [], [p.pid]⟩
        else
          let o := runProcessorHook ps inst
          ⟨o.result, .typeMismatch p.pid :: o.logs, p.pid :: o.invoked⟩

/-- Translation of `ProcessorSession.add` (src/database.py lines 17-19):
`pp = self._run_processor_hook("on_insert", instance)` followed by
`super().add(instance if not pp else pp)`.  The underlying store primitive
is modelled as appending to the row list. -/
def interceptAdd (procs : List IProc) (store : List Entity) (inst : Entity) : List Entity :=
  store ++ [((runProcessorHook procs inst).result).getD inst]

/-- Translation of `ProcessorSession.get` (src/database.py lines 25-30):
the stored instance (if any) is passed through the hook chain and
`instance if not pp else pp` is returned to the caller. -/
def interceptGet (procs : List IProc) : Option Entity → Option Entity
  | none => none
  | some inst => some (((runProcessorHook procs inst).result).getD inst)

/-- One processor's decision in `_run_processor_hook`, separated out: `none`
means the processor raised or violated its output contract (so the loop
continues past it); `some r` means the loop `return`s with value `r`. -/
def hookStep (p : IProc) (inst : Entity) : Option (Option Entity) :=
  match p.hook inst with
  | .error _ => none
  | .ok post =>
    match p.outputType, post with
    | none, none => some (some inst)
    | none, some _ => none
    | some _, none => some none
    | some t, some q => if q.tag = t then some (some q) else none

/-- The value `_run_processor_hook` actually produces: the decision of the
first processor, in registration order, that neither raises nor violates
its contract; Python `None` if there is no such processor. -/
def firstDecision (procs : List IProc) (inst : Entity) : Option Entity :=
  (((procs.find? (fun p => (hookStep p inst).isSome)).bind
      (fun p => hookStep p inst))).join

/-- The processors whose hooks actually run: every processor up to and
including the first one that decides; all of them when none decides. -/
def invokedUpToFirst (procs : List IProc) (inst : Entity) : List Nat :=
  ((procs.takeWhile (fun p => (hookStep p inst).isNone)).map (fun p => p.pid)) ++
    (match procs.find? (fun p => (hookStep p inst).isSome) with
     | some p => [p.pid]
     | none => [])

/-- The entity chain the specification describes for claim C1: each
processor receives the entity as substituted by the previous one (a hook
returning a value substitutes, anything else leaves the entity unchanged). -/
def chainSubst (procs : List IProc) (inst : Entity) : Entity :=
  procs.foldl
    (fun cur p =>
      match p.hook cur with
      | .ok (some q) => q
      | _ => cur) inst

-- When a processor raises or violates its contract (its `hookStep` is
-- `none`), `_run_processor_hook` logs and falls through to the rest.
theorem runProcessorHook_cons_skip (p : IProc) (ps : List IProc) (inst : Entity)
    (h : hookStep p inst = none) :
    (runProcessorHook (p :: ps) inst).result = (runProcessorHook ps inst).result ∧
    (runProcessorHook (p :: ps) inst).invoked = p.pid :: (runProcessorHook ps inst).invoked := by
  unfold hookStep at h
  simp only [runProcessorHook]
  rcases hev : p.hook inst with e | post
  · simp [hev] at h ⊢
  · rw [hev] at h
    rcases hot : p.outputType with _ | t
    · rcases post with _ | q
      · simp [hot] at h
      · simp [hev, hot] at h ⊢
    · rcases post with _ | q
      · simp [hot] at h
      · simp only [hev, hot] at h ⊢
        by_cases htag : q.tag = t
        · simp [htag] at h
        · simp [htag]

-- When a processor's hook succeeds and respects the contract, the loop
-- returns that processor's decision at once.
theorem runProcessorHook_cons_decide (p : IProc) (ps : List IProc) (inst : Entity)
    (r : Option Entity) (h : hookStep p inst = some r) :
    runProcessorHook (p :: ps) inst = ⟨r, [], [p.pid]⟩ := by
  unfold hookStep at h
  simp only [runProcessorHook]
  rcases hev : p.hook inst with e | post
  · simp [hev] at h
  · rw [hev] at h
    rcases hot : p.outputType with _ | t
    · rcases post with _ | q
      · simp [hev, hot] at h ⊢
        exact h
      · simp [hot] at h
    · rcases post with _ | q
      · simp [hev, hot] at h ⊢
        exact h
      · simp only [hev, hot] at h ⊢
        by_cases htag : q.tag = t
        · simp [htag] at h ⊢
          exact h
        · simp [htag] at h

theorem runProcessorHook_result (procs : List IProc) (inst : Entity) :
    (runProcessorHook procs inst).result = firstDecision procs inst := by
  induction procs with
  | nil => rfl
  | cons p ps ih =>
    rcases h : hookStep p inst with _ | r
    · have hk := runProcessorHook_cons_skip p ps inst h
      rw [hk.1, ih]
      unfold firstDecision
      simp [List.find?_cons, h]
    · rw [runProcessorHook_cons_decide p ps inst r h]
      unfold firstDecision
      simp [List.find?_cons, h]

theorem runProcessorHook_invoked (procs : List IProc) (inst : Entity) :
    (runProcessorHook procs inst).invoked = invokedUpToFirst procs inst := by
  induction procs with
  | nil => rfl
  | cons p ps ih =>
    rcases h : hookStep p inst with _ | r
    · have hk := runProcessorHook_cons_skip p ps inst h
      rw [hk.2, ih]
      unfold invokedUpToFirst
      simp [List.find?_cons, List.takeWhile_cons, h]
    · rw [runProcessorHook_cons_decide p ps inst r h]
      unfold invokedUpToFirst
      simp [List.find?_cons, List.takeWhile_cons, h]

-- Concrete processors for the C1 counterexample: both are registered for
-- `log` entities and both return a well-typed substitution.
def cexProcA : IProc := ⟨1, some .log, fun _ => .ok (some ⟨.log, 10⟩)⟩

def cexProcB : IProc := ⟨2, some .log, fun _ => .ok (some ⟨.log, 20⟩)⟩

def cexEntity : Entity := ⟨.log, 0⟩

/-- Claim C1, counterexample.  With two processors registered for the same
type, both returning well-typed substitutions, the interception layer does
NOT invoke both hooks and does NOT pass the chained substitution to the
store: `_run_processor_hook` returns inside the loop as soon as the first
processor's hook succeeds, so only processor 1 is invoked and its value
(payload 10), not the chained value (payload 20), reaches the store. -/
theorem c1_counterexample :
    ¬ ((runProcessorHook [cexProcA, cexProcB] cexEntity).invoked = [1, 2] ∧
       interceptAdd [cexProcA, cexProcB] [] cexEntity =
         [chainSubst [cexProcA, cexProcB] cexEntity]) := by
  decide

/-- Claim C1, amended.  For every store operation on an entity whose type
has registered processors, the interception layer invokes processors in
registration order only up to and including the first processor whose hook
neither raises nor violates the output contract; that processor's decision
is final (later processors are not invoked and see nothing), and it is this
first decision — the substituted entity, or the original when no processor
decides or the decision is "no substitution" — that is passed to the
underlying store primitive (for get, returned to the caller). -/
theorem c1_first_decider_semantics (procs : List IProc) (inst : Entity)
    (store : List Entity) :
    (runProcessorHook procs inst).result = firstDecision procs inst ∧
    (runProcessorHook procs inst).invoked = invokedUpToFirst procs inst ∧
    interceptAdd procs store inst = store ++ [(firstDecision procs inst).getD inst] ∧
    interceptGet procs (some inst) = some ((firstDecision procs inst).getD inst) := by
  refine ⟨runProcessorHook_result procs inst, runProcessorHook_invoked procs inst, ?_, ?_⟩
  · unfold interceptAdd
    rw [runProcessorHook_result]
  · simp only [interceptGet]
    rw [runProcessorHook_result]

/-- In the repository a processor "whose declared OutputType is none" is one
whose second generic argument makes `get_output_type` produce either Python
`None` (generic arguments undeterminable) or the class `NoneType`
(declared `Processor[X, NoneType]`, as `HeartbeatProcessor` and
`UptimeProcessor` are). -/
def declaredOutputNone (p : IProc) : Prop :=
  p.outputType = none ∨ p.outputType = some TypeTag.noneType

/-- Claim C2.  A hook of a processor whose declared OutputType is none that
returns a non-none value is rejected: exactly one violation entry is logged
for that processor (`Expected None but got a value` when `get_output_type`
gave Python `None`, the `isinstance`-mismatch error when it gave
`NoneType`), no substitution occurs (the chain's result is whatever the
remaining processors produce from the ORIGINAL entity), and the caller's
operation proceeds — with this processor alone, the store primitive
receives the original entity and a get returns it; no fault escapes, since
the inner `except` of `_run_processor_hook` swallows the violation. -/
theorem c2_none_output_rejected (p : IProc) (ps : List IProc) (inst v : Entity)
    (store : List Entity) (hdecl : declaredOutputNone p)
    (hret : p.hook inst = .ok (some v)) (hv : v.tag ≠ TypeTag.noneType) :
    (∃ l, (runProcessorHook (p :: ps) inst).logs = l :: (runProcessorHook ps inst).logs ∧
        (l = HookLog.unexpectedValue p.pid ∨ l = HookLog.typeMismatch p.pid)) ∧
    (runProcessorHook (p :: ps) inst).result = (runProcessorHook ps inst).result ∧
    (runProcessorHook (p :: ps) inst).invoked = p.pid :: (runProcessorHook ps inst).invoked ∧
    interceptAdd [p] store inst = store ++ [inst] ∧
    interceptGet [p] (some inst) = some inst := by
  have hone : ∀ qs, runProcessorHook (p :: qs) inst =
      ⟨(runProcessorHook qs inst).result,
        (if p.outputType = none then HookLog.unexpectedValue p.pid
          else HookLog.typeMismatch p.pid) :: (runProcessorHook qs inst).logs,
        p.pid :: (runProcessorHook qs inst).invoked⟩ := by
    intro qs
    rcases hdecl with hd | hd
    · simp [runProcessorHook, hret, hd]
    · simp [runProcessorHook, hret, hd]
      intro hcontra
      exact absurd hcontra hv
  refine ⟨⟨_, by rw [hone ps], ?_⟩, by rw [hone ps], by rw [hone ps], ?_, ?_⟩
  · split
    · exact Or.inl rfl
    · exact Or.inr rfl
  · unfold interceptAdd
    rw [hone []]
    rfl
  · simp only [interceptGet]
    rw [hone []]
    rfl

/-- Concrete violating processor for the C2 witness: declared OutputType
is none (undeterminable), yet its on-insert hook returns a value. -/
def c2proc : IProc := ⟨5, none, fun _ => .ok (some ⟨.log, 9⟩)⟩

/-- Witness for C2 at a concrete violating processor. -/
theorem c2_witness :
    (∃ l, (runProcessorHook [c2proc] ⟨.log, 1⟩).logs =
            l :: (runProcessorHook [] ⟨.log, 1⟩).logs ∧
        (l = HookLog.unexpectedValue c2proc.pid ∨ l = HookLog.typeMismatch c2proc.pid)) ∧
    (runProcessorHook [c2proc] ⟨.log, 1⟩).result = (runProcessorHook [] ⟨.log, 1⟩).result ∧
    (runProcessorHook [c2proc] ⟨.log, 1⟩).invoked =
      c2proc.pid :: (runProcessorHook [] ⟨.log, 1⟩).invoked ∧
    interceptAdd [c2proc] [] ⟨.log, 1⟩ = [] ++ [⟨.log, 1⟩] ∧
    interceptGet [c2proc] (some ⟨.log, 1⟩) = some ⟨.log, 1⟩ :=
  c2_none_output_rejected c2proc [] ⟨.log, 1⟩ ⟨.log, 9⟩ [] (Or.inl rfl) rfl (by decide)

/-- A stored row for the interval scheduler: a table (type tag), a primary
key, and a payload.  `session.merge` resolves rows by primary key within
the row's own table. -/
structure Row where
  tag : TypeTag
  ident : Nat
  payload : Nat
deriving DecidableEq, Repr

/-- A processor as seen by `ProcessorManager`: `get_model_type` /
`get_output_type` results (`none` models Python `None`), the `on_interval`
body (which may raise), the `on_interval_each` hook, and the declared
cadence. -/
structure PProc where
  inputType : Option TypeTag
  outputType : Option TypeTag
  onInterval : Except Unit Unit
  onIntervalEach : Row → Except Unit (Option Row)
  interval : ℚ

/-- Translation of `session.merge(processed_item)`: if a row with the same
table and primary key exists it is overwritten, otherwise the row is
inserted. -/
def mergeRow (st : List Row) (out : Row) : List Row :=
  if st.any (fun r => r.tag == out.tag && r.ident == out.ident) then
    st.map (fun r => if r.tag == out.tag && r.ident == out.ident then out else r)
  else st ++ [out]

/-- The reconciliation branch of `_execute_processor_interval`
(src/processors/manager.py lines 131-137): same input and output type means
`session.merge`, different types mean `session.add` (append). -/
def reconcile (it ot : TypeTag) (st : List Row) (out : Row) : List Row :=
  if it = ot then mergeRow st out else st ++ [out]

/-- Handling of one row inside the `for item in results` loop of
`_execute_processor_interval` (src/processors/manager.py lines 114-137):
a raising hook propagates; a none return skips the row; a value with no
output type or of the wrong runtime type raises; otherwise the value is
reconciled into the pending session state. -/
def processRow (p : PProc) (it : TypeTag) (st : List Row) (row : Row) :
    Except Unit (List Row) :=
  match p.onIntervalEach row with
  | .error e => .error e
  | .ok none => .ok st
  | .ok (some out) =>
    match p.outputType with
    | none => .error ()
    | some ot =>
      if out.tag = ot then .ok (reconcile it ot st out)
      else .error ()

/-- The whole `with Session(engine)` block: rows of the processor's input
type are fetched once, each is processed against the pending state, and on
success the pending state is what the single `session.commit()` publishes.
An error anywhere loses the pending writes (the session closes without
committing). -/
def tickEach (p : PProc) (it : TypeTag) (store : List Row) : Except Unit (List Row) :=
  (store.filter (fun r => r.tag == it)).foldlM (fun st row => processRow p it st row) store

/-- Whether anything inside one call of `_execute_processor_interval`
raises (either `on_interval` or the per-row pass). -/
def tickThrows (p : PProc) (store : List Row) : Bool :=
  match p.onInterval with
  | .error _ => true
  | .ok _ =>
    match p.inputType with
    | none => false
    | some it =>
      match tickEach p it store with
      | .error _ => true
      | .ok _ => false

/-- Outcome of one `_execute_processor_interval` call: the published store,
the processor's `_last_run` attribute afterwards, and whether the
`except` clause logged an error. -/
structure TickResult where
  store : List Row
  lastRun : Option ℚ
  errorLogged : Bool
deriving DecidableEq

/-- Translation of `ProcessorManager._execute_processor_interval`
(src/processors/manager.py lines 101-144): run `on_interval`, then the
per-row pass when the input type is determinable, commit once, and only
then `setattr(processor, "_last_run", time.time())`; any exception is
caught and logged by the trailing `except`, leaving store and `_last_run`
as they were. -/
def executeProcessorInterval (p : PProc) (store : List Row) (lastRun : Option ℚ)
    (now : ℚ) : TickResult :=
  match p.onInterval with
  | .error _ => ⟨store, lastRun, true⟩
  | .ok _ =>
    match p.inputType with
    | none => ⟨store, some now, false⟩
    | some it =>
      match tickEach p it store with
      | .error _ => ⟨store, lastRun, true⟩
      | .ok st2 => ⟨st2, some now, false⟩

/-- The sleep computation of `_run_processor_loop`
(src/processors/manager.py line 92): `max(0.1, interval - elapsed)`. -/
def loopSleep (interval elapsed : ℚ) : ℚ := max (1/10) (interval - elapsed)

/-- One iteration of `_run_processor_loop`: execute the tick (all errors
already swallowed inside it), then sleep `max(0.1, interval - elapsed)` —
the same cadence computation whether or not the tick raised. -/
def runProcessorLoopStep (p : PProc) (store : List Row) (lastRun : Option ℚ)
    (now elapsed : ℚ) : TickResult × ℚ :=
  (executeProcessorInterval p store lastRun now, loopSleep p.interval elapsed)

/-- Number of rows in table `tg` with primary key `ident`. -/
def countId (st : List Row) (tg : TypeTag) (ident : Nat) : Nat :=
  st.countP (fun r => r.tag == tg && r.ident == ident)

/-- Number of rows in table `tg`. -/
def countTag (st : List Row) (tg : TypeTag) : Nat :=
  st.countP (fun r => r.tag == tg)

-- A pointwise predicate-preserving map preserves `countP`.
theorem countP_map_preserve (f : Row → Row) (pr : Row → Bool)
    (hf : ∀ r, pr (f r) = pr r) (st : List Row) :
    (st.map f).countP pr = st.countP pr := by
  induction st with
  | nil => rfl
  | cons a l ih => simp [List.countP_cons, hf, ih]

-- Merging a row whose identity already occurs keeps the per-id row count.
theorem countId_mergeRow (st : List Row) (out : Row)
    (h : countId st out.tag out.ident = 1) :
    countId (mergeRow st out) out.tag out.ident = 1 := by
  have hpos : st.any (fun r => r.tag == out.tag && r.ident == out.ident) = true := by
    rw [List.any_eq_true]
    have : 0 < st.countP (fun r => r.tag == out.tag && r.ident == out.ident) := by
      unfold countId at h
      omega
    obtain ⟨a, ha, hpa⟩ := List.countP_pos_iff.mp this
    exact ⟨a, ha, hpa⟩
  unfold mergeRow
  rw [hpos]
  simp only [if_true]
  simp only [countId] at h ⊢
  rw [countP_map_preserve]
  · exact h
  · intro r
    by_cases hr : (r.tag == out.tag && r.ident == out.ident) = true
    · simp [hr]
    · simp [hr]

-- Appending a row of table `ot` grows that table's row count by one.
theorem countTag_append (st : List Row) (out : Row) (ot : TypeTag)
    (h : out.tag = ot) : countTag (st ++ [out]) ot = countTag st ot + 1 := by
  unfold countTag
  rw [List.countP_append]
  simp [h]

/-- Claim C3.  When `on_interval_each` returns a value that passes the type
contract, the scheduler reconciles it: with equal input and output types it
is merged into the existing row by primary key, keeping the row count for
that id at 1; with different types it is appended, growing the output
table's row count by exactly one.  All writes of one tick are published
atomically: the store after `_execute_processor_interval` is either the
untouched input store or the result of the per-row pass flushed by the
single `session.commit()` at the end of the loop. -/
theorem c3_reconcile_and_commit (p : PProc) (it ot : TypeTag) (st store : List Row)
    (row out : Row) (lastRun : Option ℚ) (now : ℚ)
    (hot : p.outputType = some ot) (hret : p.onIntervalEach row = .ok (some out))
    (htag : out.tag = ot) :
    processRow p it st row = .ok (reconcile it ot st out) ∧
    (it = ot → countId st out.tag out.ident = 1 →
      countId (reconcile it ot st out) out.tag out.ident = 1) ∧
    (it ≠ ot → countTag (reconcile it ot st out) ot = countTag st ot + 1) ∧
    ((executeProcessorInterval p store lastRun now).store = store ∨
      ∃ it2 st2, p.inputType = some it2 ∧ tickEach p it2 store = .ok st2 ∧
        (executeProcessorInterval p store lastRun now).store = st2) := by
  refine ⟨?_, ?_, ?_, ?_⟩
  · simp [processRow, hret, hot, htag]
  · intro heq hcount
    unfold reconcile
    rw [if_pos heq]
    exact countId_mergeRow st out hcount
  · intro hne
    unfold reconcile
    rw [if_neg hne]
    exact countTag_append st out ot htag
  · rcases ho : p.onInterval with e | u
    · simp [executeProcessorInterval, ho]
    · rcases hin : p.inputType with _ | it2
      · simp [executeProcessorInterval, ho, hin]
      · rcases hte : tickEach p it2 store with e | st2
        · simp [executeProcessorInterval, ho, hin, hte]
        · exact Or.inr ⟨it2, st2, rfl, hte, by simp [executeProcessorInterval, ho, hin, hte]⟩

/-- Concrete same-type processor for the C3 witness: input and output types
are both `log`; the hook bumps the payload of the row it is given. -/
def c3proc : PProc :=
  ⟨some .log, some .log, .ok (), fun r => .ok (some ⟨.log, r.ident, r.payload + 1⟩), 60⟩

/-- Witness for C3 at a concrete processor, pending state, and row. -/
theorem c3_witness :
    processRow c3proc .log [⟨.log, 1, 4⟩] ⟨.log, 1, 4⟩ =
      .ok (reconcile .log .log [⟨.log, 1, 4⟩] ⟨.log, 1, 5⟩) ∧
    (TypeTag.log = TypeTag.log → countId [⟨.log, 1, 4⟩] TypeTag.log 1 = 1 →
      countId (reconcile .log .log [⟨.log, 1, 4⟩] ⟨.log, 1, 5⟩) TypeTag.log 1 = 1) ∧
    (TypeTag.log ≠ TypeTag.log →
      countTag (reconcile .log .log [⟨.log, 1, 4⟩] ⟨.log, 1, 5⟩) TypeTag.log =
        countTag [⟨.log, 1, 4⟩] TypeTag.log + 1) ∧
    ((executeProcessorInterval c3proc [⟨.log, 1, 4⟩] none 7).store = [⟨.log, 1, 4⟩] ∨
      ∃ it2 st2, c3proc.inputType = some it2 ∧
        tickEach c3proc it2 [⟨.log, 1, 4⟩] = .ok st2 ∧
        (executeProcessorInterval c3proc [⟨.log, 1, 4⟩] none 7).store = st2) :=
  c3_reconcile_and_commit c3proc .log .log [⟨.log, 1, 4⟩] [⟨.log, 1, 4⟩]
    ⟨.log, 1, 4⟩ ⟨.log, 1, 5⟩ none 7 rfl rfl rfl

/-- Claim C7.  Any throw inside a tick (in `on_interval` or in the per-row
pass) is caught and logged by `_execute_processor_interval`'s `except`;
`_last_run` is left untouched exactly in that case and is set to the tick's
completion time only when nothing threw; and the loop's next sleep is
`max(0.1, interval - elapsed)` regardless of whether the tick threw, so the
next tick proceeds on normal cadence. -/
theorem c7_tick_errors_contained (p : PProc) (store : List Row)
    (lastRun : Option ℚ) (now elapsed : ℚ) :
    (executeProcessorInterval p store lastRun now).lastRun =
      (if tickThrows p store then lastRun else some now) ∧
    (executeProcessorInterval p store lastRun now).errorLogged = tickThrows p store ∧
    (runProcessorLoopStep p store lastRun now elapsed).2 =
      max (1/10) (p.interval - elapsed) := by
  refine ⟨?_, ?_, rfl⟩ <;>
  · rcases ho : p.onInterval with e | u
    · simp [executeProcessorInterval, tickThrows, ho]
    · rcases hin : p.inputType with _ | it
      · simp [executeProcessorInterval, tickThrows, ho, hin]
      · rcases hte : tickEach p it store with e | st2 <;>
          simp [executeProcessorInterval, tickThrows, ho, hin, hte]

/-- A row of the `log` table, with the fields `LogCompressorProcessor`
touches. -/
structure LogRow where
  id : Nat
  containerId : Nat
  timestamp : Int
  message : String
deriving DecidableEq, Repr

/-- Numeric value of a digit string, as Python's `int` reads the capture
group of `r' x(\d+)$'`. -/
def digitsToNat (cs : List Char) : Nat :=
  cs.foldl (fun n c => n * 10 + (c.toNat - 48)) 0

/-- Translation of the `re.search(r' x(\d+)$', last_log.message)` block
(src/processors/incremental/log_compressor.py lines 28-36): if the message
ends in a space, an `x` and one or more digits, return the message with
that suffix stripped together with the counter; otherwise the whole message
with counter 1. -/
def splitRepeatSuffix (msg : String) : String × Nat :=
  let rcs := msg.data.reverse
  let digits := rcs.takeWhile Char.isDigit
  let rest := rcs.dropWhile Char.isDigit
  match digits, rest with
  | [], _ => (msg, 1)
  | _, 'x' :: ' ' :: rest2 => (String.mk (rest2.reverse), digitsToNat (digits.reverse))
  | _, _ => (msg, 1)

/-- One step of the fold implementing `ORDER BY timestamp DESC LIMIT 1`:
keep the row with the strictly larger timestamp (ties keep the earlier
row). -/
def maxStep (acc : Option LogRow) (r : LogRow) : Option LogRow :=
  match acc with
  | none => some r
  | some b => if r.timestamp > b.timestamp then some r else some b

/-- The query of `LogCompressorProcessor.on_insert`: the most recent
existing log line for the container. -/
def mostRecent (logs : List LogRow) (cid : Nat) : Option LogRow :=
  (logs.filter (fun r => r.containerId == cid)).foldl maxStep none

/-- Translation of `LogCompressorProcessor.on_insert`
(src/processors/incremental/log_compressor.py lines 14-50).
`sessionAvailable` models the `object_session(log)` guard: when Python
`None` comes back the hook returns early with no effect; the compression
path assumes the hook can reach the live session.  On a repeat, the prior
line's message gets the incremented ` xN` counter and the new line's
timestamp, `session.add(last_log)` re-registers the updated row, and
`session.delete(log)` keeps the new line out of the store; the updated row
is returned as the substitution. -/
def logOnInsert (sessionAvailable : Bool) (logs : List LogRow) (lg : LogRow) :
    List LogRow × Option LogRow :=
  if !sessionAvailable then (logs, none)
  else
    match mostRecent logs lg.containerId with
    | none => (logs, none)
    | some last =>
      let bc := splitRepeatSuffix last.message
      if lg.message = bc.1 then
        let updated : LogRow :=
          ⟨last.id, last.containerId, lg.timestamp, bc.1 ++ " x" ++ toString (bc.2 + 1)⟩
        (logs.map (fun r => if r.id == last.id then updated else r), some updated)
      else (logs, none)

/-- `ProcessorSession.add` specialised to the log compressor: the hook runs
first, then `super().add(instance if not pp else pp)` — appending the new
line when there was no substitution, and re-adding the (already present)
updated row otherwise, which inserts nothing new. -/
def sessionAddLog (sessionAvailable : Bool) (logs : List LogRow) (lg : LogRow) :
    List LogRow :=
  match logOnInsert sessionAvailable logs lg with
  | (logs2, none) => logs2 ++ [lg]
  | (logs2, some p) =>
    if logs2.any (fun r => r.id == p.id) then logs2 else logs2 ++ [p]

-- The fold behind `mostRecent` only ever produces its seed or a list
-- element.
theorem foldl_maxStep_mem (l : List LogRow) (acc : Option LogRow) (last : LogRow)
    (h : l.foldl maxStep acc = some last) : acc = some last ∨ last ∈ l := by
  induction l generalizing acc with
  | nil => exact Or.inl h
  | cons a t ih =>
    rcases ih (maxStep acc a) h with hc | hm
    · rcases acc with _ | b
      · simp only [maxStep] at hc
        cases hc
        exact Or.inr (List.mem_cons_self _ _)
      · by_cases ht : a.timestamp > b.timestamp
        · simp only [maxStep, if_pos ht] at hc
          cases hc
          exact Or.inr (List.mem_cons_self _ _)
        · simp only [maxStep, if_neg ht] at hc
          exact Or.inl hc
    · exact Or.inr (List.mem_cons_of_mem _ hm)

-- The most recent line for a container is an existing line.
theorem mostRecent_mem (logs : List LogRow) (cid : Nat) (last : LogRow)
    (h : mostRecent logs cid = some last) : last ∈ logs := by
  unfold mostRecent at h
  rcases foldl_maxStep_mem _ _ _ h with hc | hm
  · exact absurd hc (by simp)
  · exact (List.mem_filter.mp hm).1

/-- First "disk full" line of the C4 scenario. -/
def dfLog1 : LogRow := ⟨1, 7, 100, "disk full"⟩

/-- Second "disk full" line of the C4 scenario. -/
def dfLog2 : LogRow := ⟨2, 7, 200, "disk full"⟩

/-- Third "disk full" line of the C4 scenario. -/
def dfLog3 : LogRow := ⟨3, 7, 300, "disk full"⟩

/-- A different message inserted afterwards in the C4 scenario. -/
def otherLog : LogRow := ⟨4, 7, 400, "another message"⟩

/-- The compression algorithm on the session-available branch of
`on_insert`: were `object_session(log)` to return the live session,
inserting "disk full" three times for container 7 would leave exactly one
row `"disk full x3"` with the latest timestamp, a different message would
become a second row, and in general a message equal to the most recent
line's message with its trailing ` xN` counter stripped would increment
the counter, take the new timestamp, and discard the new line.  This is
the behaviour claim C4 describes — the intended algorithm is implemented —
but the insert path never reaches this branch (see the claim's
failing-input theorem below). -/
theorem compressionWithLiveSession :
    (sessionAddLog true (sessionAddLog true (sessionAddLog true [] dfLog1) dfLog2) dfLog3
        = [⟨1, 7, 300, "disk full x3"⟩]) ∧
    (sessionAddLog true
        (sessionAddLog true (sessionAddLog true (sessionAddLog true [] dfLog1) dfLog2) dfLog3)
        otherLog = [⟨1, 7, 300, "disk full x3"⟩, otherLog]) ∧
    (∀ (logs : List LogRow) (lg last : LogRow),
      mostRecent logs lg.containerId = some last →
      lg.message = (splitRepeatSuffix last.message).1 →
      sessionAddLog true logs lg =
        logs.map (fun r => if r.id == last.id then
          (⟨last.id, last.containerId, lg.timestamp,
            (splitRepeatSuffix last.message).1 ++ " x"
              ++ toString ((splitRepeatSuffix last.message).2 + 1)⟩ : LogRow) else r) ∧
      (sessionAddLog true logs lg).length = logs.length) := by
  refine ⟨by rfl, by rfl, ?_⟩
  intro logs lg last hmr hmsg
  have hmem := mostRecent_mem logs lg.containerId last hmr
  have hins : logOnInsert true logs lg =
      (logs.map (fun r => if r.id == last.id then
          (⟨last.id, last.containerId, lg.timestamp,
            (splitRepeatSuffix last.message).1 ++ " x"
              ++ toString ((splitRepeatSuffix last.message).2 + 1)⟩ : LogRow) else r),
        some ⟨last.id, last.containerId, lg.timestamp,
          (splitRepeatSuffix last.message).1 ++ " x"
            ++ toString ((splitRepeatSuffix last.message).2 + 1)⟩) := by
    unfold logOnInsert
    simp only [hmr, Bool.not_true, Bool.false_eq_true, if_false]
    rw [if_pos hmsg]
  have hany : (logs.map (fun r => if r.id == last.id then
      (⟨last.id, last.containerId, lg.timestamp,
        (splitRepeatSuffix last.message).1 ++ " x"
          ++ toString ((splitRepeatSuffix last.message).2 + 1)⟩ : LogRow) else r)).any
      (fun r => r.id == last.id) = true := by
    rw [List.any_eq_true]
    refine ⟨⟨last.id, last.containerId, lg.timestamp,
      (splitRepeatSuffix last.message).1 ++ " x"
        ++ toString ((splitRepeatSuffix last.message).2 + 1)⟩,
      List.mem_map.mpr ⟨last, hmem, by simp⟩, by simp⟩
  constructor
  · unfold sessionAddLog
    rw [hins]
    simp only [hany, if_true]
  · unfold sessionAddLog
    rw [hins]
    simp only [hany, if_true, List.length_map]

/-- Claim C4, failing input.  `ProcessorSession.add` runs the `on_insert`
hook BEFORE `super().add(instance)`, so the line being inserted is still
transient when `LogCompressorProcessor.on_insert` calls
`object_session(log)`; that call yields Python `None` for a transient
instance and the `if not session: return None` guard fires on every
insert, storing the line unchanged.  Evaluating the code on the claim's
own scenario: three inserts of "disk full" for container 7 store three
separate rows, never the single `"disk full x3"` row the claim (and the
spec's log-deduplication intent) describes. -/
theorem c4_transient_session_three_rows :
    sessionAddLog false (sessionAddLog false (sessionAddLog false [] dfLog1) dfLog2) dfLog3
      = [dfLog1, dfLog2, dfLog3] ∧
    sessionAddLog false (sessionAddLog false (sessionAddLog false [] dfLog1) dfLog2) dfLog3
      ≠ [⟨1, 7, 300, "disk full x3"⟩] := by
  exact ⟨rfl, by decide⟩

/-- An agent row, with the fields `HeartbeatProcessor.on_interval` reads. -/
structure HbAgent where
  id : Nat
  heartbeatInterval : ℚ

/-- A heartbeat row.  Timestamps are nanoseconds, as produced by
`time.time_ns()` in the heartbeat route. -/
structure HeartbeatRow where
  agentId : Nat
  timestamp : ℤ

/-- The per-agent liveness state stored in the `AliveAgent` table. -/
inductive AliveState
  | active
  | inactive
deriving DecidableEq, Repr

/-- A `ContainerState` row. -/
structure ContState where
  containerId : Nat
  status : String
deriving DecidableEq, Repr

/-- The heartbeat query of `HeartbeatProcessor.on_interval`
(src/processors/analytical/heartbeat.py lines 64-74): threshold
`current_time - heartbeat_interval * 2 * 1.05` in seconds, compared against
nanosecond timestamps as `Heartbeat.timestamp >= time_threshold * 10**9`. -/
def recentHeartbeats (now : ℚ) (a : HbAgent) (hbs : List HeartbeatRow) :
    List HeartbeatRow :=
  hbs.filter (fun hb => hb.agentId == a.id &&
    decide ((now - a.heartbeatInterval * 2 * (21/20)) * 10^9 ≤ (hb.timestamp : ℚ)))

/-- The `AliveAgent` update logic of `on_interval` (lines 76-88): a missing
row is created active/inactive according to the query; an existing row
flips inactive→active when heartbeats are present and active→inactive when
they are absent, and is otherwise untouched. -/
def newAliveState (prev : Option AliveState) (recent : Bool) : AliveState :=
  match prev with
  | none => if recent then .active else .inactive
  | some st =>
    if recent then (if st = .inactive then .active else st)
    else (if st = .active then .inactive else st)

/-- The cascade of `on_interval` (lines 90-103): when heartbeats are
missing, every `ContainerState` row of one of the agent's containers gets
status `"unknown"`.  `containers` is the container table as
(container id, agent id) pairs. -/
def cascadeUnknown (containers : List (Nat × Nat)) (aid : Nat)
    (states : List ContState) : List ContState :=
  states.map (fun st =>
    if containers.any (fun c => c.1 == st.containerId && c.2 == aid) then
      { st with status := "unknown" }
    else st)

/-- One agent's pass of `HeartbeatProcessor.on_interval`: the new
`AliveAgent` state and the container-state table afterwards. -/
def agentCheck (now : ℚ) (a : HbAgent) (hbs : List HeartbeatRow)
    (prev : Option AliveState) (containers : List (Nat × Nat))
    (states : List ContState) : AliveState × List ContState :=
  let recent := !(recentHeartbeats now a hbs).isEmpty
  (newAliveState prev recent,
    if recent then states else cascadeUnknown containers a.id states)

-- Whatever the previous state, the new state is active exactly when a
-- recent heartbeat exists.
theorem newAliveState_recent (prev : Option AliveState) (recent : Bool) :
    newAliveState prev recent = (if recent then .active else .inactive) := by
  rcases prev with _ | st
  · rfl
  · cases recent <;> cases st <;> rfl

-- With heartbeat_interval = 30 and a single heartbeat at t0 seconds
-- (t0·10⁹ ns), the recency query succeeds exactly for checks at
-- now ≤ t0 + 63.
theorem recent_single_heartbeat (now : ℚ) (t0 : ℤ) (aid : Nat) :
    (!(recentHeartbeats now ⟨aid, 30⟩ [⟨aid, t0 * 10^9⟩]).isEmpty) =
      decide (now ≤ (t0 : ℚ) + 63) := by
  have harith : ((now - (30 : ℚ) * 2 * (21/20)) * 10^9 ≤ ((t0 * 10^9 : ℤ) : ℚ)) ↔
      now ≤ (t0 : ℚ) + 63 := by
    push_cast
    constructor <;> intro h <;> nlinarith
  have hd : decide ((now - (30 : ℚ) * 2 * (21/20)) * 10^9 ≤ ((t0 * 10^9 : ℤ) : ℚ))
      = decide (now ≤ (t0 : ℚ) + 63) := decide_eq_decide.mpr harith
  unfold recentHeartbeats
  simp only [List.filter_cons, List.filter_nil, beq_self_eq_true, Bool.true_and, hd]
  cases h : decide (now ≤ (t0 : ℚ) + 63) <;> simp [h]

/-- Claim C5.  For an agent with heartbeat_interval = 30 whose only
heartbeat was taken at `t0` (stored as `t0·10⁹` nanoseconds), the liveness
pass marks the agent active exactly when the check time satisfies
`now ≤ t0 + 2·30·1.05 = t0 + 63` — regardless of the previous recorded
state, so the inactive→active transition is immediate once the heartbeat is
recent again; and whenever the check finds no recent heartbeat, every
`ContainerState` row belonging to one of the agent's containers is set to
`"unknown"` while all other rows are untouched. -/
theorem c5_liveness_threshold (now : ℚ) (t0 : ℤ) (aid : Nat)
    (prev : Option AliveState) (containers : List (Nat × Nat))
    (states : List ContState) :
    ((agentCheck now ⟨aid, 30⟩ [⟨aid, t0 * 10^9⟩] prev containers states).1 = .active
        ↔ now ≤ (t0 : ℚ) + 63) ∧
    (¬ now ≤ (t0 : ℚ) + 63 →
      (agentCheck now ⟨aid, 30⟩ [⟨aid, t0 * 10^9⟩] prev containers states).2 =
        states.map (fun st =>
          if containers.any (fun c => c.1 == st.containerId && c.2 == aid) then
            { st with status := "unknown" }
          else st)) := by
  unfold agentCheck
  rw [recent_single_heartbeat]
  simp only [newAliveState_recent]
  by_cases hle : now ≤ (t0 : ℚ) + 63
  · simp [hle, cascadeUnknown]
  · simp [hle, cascadeUnknown]

/-- Witness for C5: a check at time 100 against a heartbeat taken at 20
(with threshold 83 long past) on an agent previously recorded active, with
one container in state "running". -/
theorem c5_witness :
    ((agentCheck 100 ⟨5, 30⟩ [⟨5, 20 * 10^9⟩] (some .active) [(3, 5)]
        [⟨3, "running"⟩]).1 = .active ↔ (100 : ℚ) ≤ (20 : ℤ) + 63) ∧
    (¬ (100 : ℚ) ≤ (20 : ℤ) + 63 →
      (agentCheck 100 ⟨5, 30⟩ [⟨5, 20 * 10^9⟩] (some .active) [(3, 5)]
          [⟨3, "running"⟩]).2 =
        [(⟨3, "running"⟩ : ContState)].map (fun st =>
          if [(3, 5)].any (fun c => c.1 == st.containerId && c.2 == 5) then
            { st with status := "unknown" }
          else st)) :=
  c5_liveness_threshold 100 20 5 (some .active) [(3, 5)] [⟨3, "running"⟩]

/-- Python `int()` applied to a float: truncation toward zero. -/
def pytrunc (q : ℚ) : ℤ := if 0 ≤ q then ⌊q⌋ else ⌈q⌉

/-- Python `round(x, 4)`: rounding to four decimal places. -/
def round4 (q : ℚ) : ℚ := (round (q * 10000) : ℚ) / 10000

/-- A `ContainerUptime` row. -/
structure UptimeRec where
  containerId : Nat
  uptimeSeconds : ℤ
  uptimePercentage : ℚ
  firstRecorded : ℤ
deriving DecidableEq, Repr

/-- Python's `str.lower()`, spelled out over the character list. -/
def pyLower (s : String) : String := String.mk (s.data.map Char.toLower)

/-- The `state and state.status.lower() == "running"` test of
`UptimeProcessor.on_interval_each`. -/
def statusRunning : Option String → Bool
  | none => false
  | some s => pyLower s == "running"

/-- The accrual step of `UptimeProcessor.on_interval_each`
(src/processors/analytical/uptime.py lines 81-89): while the observed
status is running and the processor has a `_last_run` attribute,
`uptime_seconds` grows by the truncated wall-clock delta since that last
run; on the processor's first tick (`last_run` missing) nothing accrues. -/
def uptimeAccrue (lastRun : Option ℚ) (now : ℚ) (status : Option String)
    (rec1 : UptimeRec) : UptimeRec :=
  if statusRunning status then
    match lastRun with
    | some lr => { rec1 with uptimeSeconds := rec1.uptimeSeconds + pytrunc (now - lr) }
    | none => rec1
  else rec1

/-- The clamp-and-percentage step of `on_interval_each` (lines 91-98):
`total_time = int(now) - first_recorded`; the overcounting clamp fires only
when `total_time > 0` and `uptime_seconds` exceeds it; the percentage is
`round(min(uptime/total*100, 100), 4)` for positive `total_time`, else 0. -/
def uptimeFinish (now : ℚ) (rec2 : UptimeRec) : UptimeRec :=
  let total := pytrunc now - rec2.firstRecorded
  let rec3 :=
    if total > 0 ∧ rec2.uptimeSeconds > total then { rec2 with uptimeSeconds := total }
    else rec2
  { rec3 with uptimePercentage :=
      if total > 0 then round4 (min ((rec3.uptimeSeconds : ℚ) / (total : ℚ) * 100) 100)
      else 0 }

/-- The whole uptime-accounting pass of `UptimeProcessor.on_interval_each`
for one container: a missing `ContainerUptime` row is created with
`first_recorded = container.created_at`, then accrual, clamp and
percentage run in the source's order.  The tick's two `time()` calls are
modelled as the single instant `now`. -/
def uptimeTick (lastRun : Option ℚ) (now : ℚ) (status : Option String)
    (createdAt : ℤ) (rec0 : Option UptimeRec) (cid : Nat) : UptimeRec :=
  uptimeFinish now (uptimeAccrue lastRun now status (rec0.getD ⟨cid, 0, 0, createdAt⟩))

-- The finish step keeps `first_recorded` unchanged.
theorem uptimeFinish_firstRecorded (now : ℚ) (rec2 : UptimeRec) :
    (uptimeFinish now rec2).firstRecorded = rec2.firstRecorded := by
  unfold uptimeFinish
  dsimp only
  split <;> rfl

-- Field characterisation of the finish step: the clamp result and the
-- percentage formula over it.
theorem uptimeFinish_spec (now : ℚ) (rec2 : UptimeRec) :
    (uptimeFinish now rec2).uptimeSeconds =
      (if pytrunc now - rec2.firstRecorded > 0 ∧
          rec2.uptimeSeconds > pytrunc now - rec2.firstRecorded
        then pytrunc now - rec2.firstRecorded else rec2.uptimeSeconds) ∧
    (uptimeFinish now rec2).uptimePercentage =
      (if pytrunc now - rec2.firstRecorded > 0
        then round4 (min (((uptimeFinish now rec2).uptimeSeconds : ℚ) /
          ((pytrunc now - rec2.firstRecorded : ℤ) : ℚ) * 100) 100)
        else 0) := by
  unfold uptimeFinish
  dsimp only
  by_cases h : pytrunc now - rec2.firstRecorded > 0 ∧
      rec2.uptimeSeconds > pytrunc now - rec2.firstRecorded
  · rw [if_pos h, if_pos h]
    exact ⟨rfl, rfl⟩
  · rw [if_neg h, if_neg h]
    exact ⟨rfl, rfl⟩

/-- Claim C6, counterexample.  A container whose `created_at` equals the
tick instant (`now = 5`, `first_recorded = 5`) observed running by a
processor whose last run was at 3 accrues `uptime_seconds = 2`, yet
`now - first_recorded = 0`: the clamp is skipped because it only fires for
`total_time > 0`, so `uptime_seconds` exceeds the elapsed total lifetime. -/
theorem c6_counterexample :
    ¬ ((uptimeTick (some 3) 5 (some "running") 5 none 9).uptimeSeconds ≤
        pytrunc 5 - (uptimeTick (some 3) 5 (some "running") 5 none 9).firstRecorded) := by
  have h2 : pytrunc ((5 : ℚ) - 3) = 2 := by norm_num [pytrunc]
  have h5 : pytrunc (5 : ℚ) = 5 := by norm_num [pytrunc]
  have hrun : statusRunning (some "running") = true := rfl
  have hacc : uptimeAccrue (some 3) 5 (some "running") ⟨9, 0, 0, 5⟩ =
      ⟨9, 2, 0, 5⟩ := by
    unfold uptimeAccrue
    rw [hrun, if_pos rfl]
    simp [h2]
  unfold uptimeTick
  simp only [Option.getD_none, hacc]
  have hfin := uptimeFinish_spec 5 ⟨9, 2, 0, 5⟩
  rw [uptimeFinish_firstRecorded]
  rw [hfin.1]
  simp [h5]

/-- Claim C6, amended.  `uptime_seconds` is clamped only when
`total_elapsed = int(now) - first_recorded` is positive, in which case the
stored value never exceeds `total_elapsed`; when `total_elapsed ≤ 0` the
clamp is skipped (and the stored value may exceed it, as the counterexample
shows).  `uptime_percentage` is exactly
`round(min(uptime_seconds / total_elapsed * 100, 100), 4)` when
`total_elapsed > 0` and `0` otherwise. -/
theorem c6_clamp_and_percentage (lastRun : Option ℚ) (now : ℚ)
    (status : Option String) (createdAt : ℤ) (rec0 : Option UptimeRec) (cid : Nat) :
    (0 < pytrunc now - (uptimeTick lastRun now status createdAt rec0 cid).firstRecorded →
      (uptimeTick lastRun now status createdAt rec0 cid).uptimeSeconds ≤
        pytrunc now - (uptimeTick lastRun now status createdAt rec0 cid).firstRecorded) ∧
    (uptimeTick lastRun now status createdAt rec0 cid).uptimePercentage =
      (if 0 < pytrunc now - (uptimeTick lastRun now status createdAt rec0 cid).firstRecorded
        then round4 (min
          (((uptimeTick lastRun now status createdAt rec0 cid).uptimeSeconds : ℚ) /
            ((pytrunc now -
              (uptimeTick lastRun now status createdAt rec0 cid).firstRecorded : ℤ) : ℚ) * 100)
          100)
        else 0) := by
  unfold uptimeTick
  have hspec := uptimeFinish_spec now
    (uptimeAccrue lastRun now status (rec0.getD ⟨cid, 0, 0, createdAt⟩))
  rw [uptimeFinish_firstRecorded, hspec.1]
  constructor
  · intro hpos
    split
    · omega
    · rename_i hcl
      rw [not_and_or] at hcl
      rcases hcl with hcl | hcl
      · exact absurd hpos (by omega)
      · omega
  · rw [hspec.2, hspec.1]

/-- Witness for C6 at a concrete tick: record created at 2, now 10, running
since a last run at 1. -/
theorem c6_witness :
    (0 < pytrunc 10 - (uptimeTick (some 1) 10 (some "running") 2 none 1).firstRecorded →
      (uptimeTick (some 1) 10 (some "running") 2 none 1).uptimeSeconds ≤
        pytrunc 10 - (uptimeTick (some 1) 10 (some "running") 2 none 1).firstRecorded) ∧
    (uptimeTick (some 1) 10 (some "running") 2 none 1).uptimePercentage =
      (if 0 < pytrunc 10 - (uptimeTick (some 1) 10 (some "running") 2 none 1).firstRecorded
        then round4 (min
          (((uptimeTick (some 1) 10 (some "running") 2 none 1).uptimeSeconds : ℚ) /
            ((pytrunc 10 -
              (uptimeTick (some 1) 10 (some "running") 2 none 1).firstRecorded : ℤ) : ℚ) * 100)
          100)
        else 0) :=
  c6_clamp_and_percentage (some 1) 10 (some "running") 2 none 1

/-- Claim C10.  On the first interval tick the uptime processor performs
(no `_last_run` recorded yet), `uptime_seconds` is not incremented even for
a running container — the result never exceeds the prior stored value; from
later ticks onward (a recorded last run, running status, and the clamp not
binding) the stored value grows by exactly the truncated wall-clock delta
since the recorded last run. -/
theorem c10_first_tick_no_accrual (now : ℚ) (status : Option String)
    (createdAt : ℤ) (rec0 : Option UptimeRec) (cid : Nat) (lr : ℚ) (r0 : UptimeRec) :
    ((uptimeTick none now status createdAt rec0 cid).uptimeSeconds ≤
      (rec0.getD ⟨cid, 0, 0, createdAt⟩).uptimeSeconds) ∧
    (statusRunning status = true → rec0 = some r0 →
      r0.uptimeSeconds + pytrunc (now - lr) ≤ pytrunc now - r0.firstRecorded →
      (uptimeTick (some lr) now status createdAt rec0 cid).uptimeSeconds =
        r0.uptimeSeconds + pytrunc (now - lr)) := by
  constructor
  · unfold uptimeTick
    have hnoinc : uptimeAccrue none now status (rec0.getD ⟨cid, 0, 0, createdAt⟩) =
        rec0.getD ⟨cid, 0, 0, createdAt⟩ := by
      unfold uptimeAccrue
      cases statusRunning status <;> simp
    rw [hnoinc, (uptimeFinish_spec now (rec0.getD ⟨cid, 0, 0, createdAt⟩)).1]
    split
    · omega
    · exact le_refl _
  · intro hrun hr0 hle
    unfold uptimeTick
    rw [hr0]
    have hacc : uptimeAccrue (some lr) now status ((some r0).getD ⟨cid, 0, 0, createdAt⟩) =
        { r0 with uptimeSeconds := r0.uptimeSeconds + pytrunc (now - lr) } := by
      unfold uptimeAccrue
      rw [hrun, if_pos rfl]
      rfl
    rw [hacc, (uptimeFinish_spec now _).1]
    rw [if_neg (by simp only [not_and_or]; right; omega)]

/-- Witness for C10: a stored record with 3 accrued seconds; the first-tick
branch leaves it at 3, and a tick with a last run at 9 and now 10 accrues
exactly the truncated delta. -/
theorem c10_witness :
    ((uptimeTick none 10 (some "running") 2 (some ⟨1, 3, 0, 2⟩) 1).uptimeSeconds ≤
      ((some (⟨1, 3, 0, 2⟩ : UptimeRec)).getD ⟨1, 0, 0, 2⟩).uptimeSeconds) ∧
    (statusRunning (some "running") = true →
      (some (⟨1, 3, 0, 2⟩ : UptimeRec)) = some ⟨1, 3, 0, 2⟩ →
      (3 : ℤ) + pytrunc (10 - 9) ≤ pytrunc 10 - 2 →
      (uptimeTick (some 9) 10 (some "running") 2 (some ⟨1, 3, 0, 2⟩) 1).uptimeSeconds =
        3 + pytrunc (10 - 9)) :=
  c10_first_tick_no_accrual 10 (some "running") 2 (some ⟨1, 3, 0, 2⟩) 1 9 ⟨1, 3, 0, 2⟩

/-- A discoverable processor implementation as `load_all` sees it: an
identity, whether `cls()` succeeds, whether `on_startup()` succeeds, and
the input entity type `get_model_type` extracts (`none` when
undeterminable). -/
structure PClass where
  cid : Nat
  instOk : Bool
  startOk : Bool
  modelType : Option TypeTag

/-- The registry state built by `ProcessorManager.load_all`: the
`processors` list, the `processors_by_model` index flattened to
registration pairs, the instances whose `on_startup` completed, and the
classes whose construction attempt logged a failure. -/
structure LoadState where
  processors : List Nat
  byModel : List (TypeTag × Nat)
  started : List Nat
  failures : List Nat
deriving DecidableEq, Repr

/-- Translation of the loop body of `ProcessorManager.load_all`
(src/processors/manager.py lines 27-44).  The `try` covers instantiation,
registration and `on_startup` for ONE class: a failing `cls()` leaves no
trace except the log; a failing `on_startup` is logged but the instance has
already been appended to `processors` and registered by model type. -/
def loadOne (st : LoadState) (c : PClass) : LoadState :=
  if c.instOk then
    let st1 := { st with processors := st.processors ++ [c.cid] }
    let st2 :=
      match c.modelType with
      | some t => { st1 with byModel := st1.byModel ++ [(t, c.cid)] }
      | none => st1
    if c.startOk then { st2 with started := st2.started ++ [c.cid] }
    else { st2 with failures := st2.failures ++ [c.cid] }
  else { st with failures := st.failures ++ [c.cid] }

/-- `ProcessorManager.load_all` over the classes `load_processors`
discovered. -/
def loadAllClasses (cs : List PClass) : LoadState :=
  cs.foldl loadOne ⟨[], [], [], []⟩

/-- Translation of `load_processors` (src/processors/__init__.py lines
72-102): each plugin file either yields its classes or raises while being
executed; `spec.loader.exec_module` is NOT inside any `try`, so one failing
file aborts the whole walk. -/
def loadProcessorsFiles (files : List (Option (List PClass))) : Option (List PClass) :=
  files.foldl
    (fun acc f =>
      match acc, f with
      | some cs, some cs2 => some (cs ++ cs2)
      | _, _ => none)
    (some [])

/-- `load_all` end to end: a raising `load_processors` propagates (nothing
gets registered), otherwise the per-class loop runs. -/
def loadAllFromFiles (files : List (Option (List PClass))) : Option LoadState :=
  (loadProcessorsFiles files).map loadAllClasses

/-- Concrete implementation whose `on_startup` raises. -/
def badStartClass : PClass := ⟨1, true, false, some .log⟩

/-- Concrete implementation that loads and starts fine. -/
def goodClass : PClass := ⟨2, true, true, some .log⟩

/-- Claim C8, counterexample.  An implementation whose `on_startup` throws
is logged but NOT skipped: `load_all` appends the instance to `processors`
and registers it by model type before calling `on_startup`, so it stays
registered.  (The sibling implementation is still registered and started.) -/
theorem c8_counterexample :
    ¬ (badStartClass.cid ∉ (loadAllClasses [badStartClass, goodClass]).processors ∧
        (loadAllClasses [badStartClass, goodClass]).byModel.all
          (fun r => r.2 ≠ badStartClass.cid)) := by
  decide

-- `foldl loadOne` characterised over an arbitrary starting state.
theorem loadAll_foldl_spec (cs : List PClass) (st : LoadState) :
    (cs.foldl loadOne st).processors =
      st.processors ++ (cs.filter (fun c => c.instOk)).map (fun c => c.cid) ∧
    (cs.foldl loadOne st).started =
      st.started ++ (cs.filter (fun c => c.instOk && c.startOk)).map (fun c => c.cid) ∧
    (cs.foldl loadOne st).byModel =
      st.byModel ++ cs.filterMap
        (fun c => if c.instOk then c.modelType.map (fun t => (t, c.cid)) else none) ∧
    (cs.foldl loadOne st).failures =
      st.failures ++ (cs.filter (fun c => !(c.instOk && c.startOk))).map (fun c => c.cid) := by
  induction cs generalizing st with
  | nil => simp
  | cons c t ih =>
    rcases hi : c.instOk with _ | _
    · rcases hm : c.modelType with _ | ty <;>
        simpa [loadOne, hi, hm] using ih { st with failures := st.failures ++ [c.cid] }
    · rcases hs : c.startOk with _ | _ <;> rcases hm : c.modelType with _ | ty <;>
        simp [loadOne, hi, hs, hm, ih]

-- A raising plugin file poisons the whole discovery fold.
theorem loadProcessorsFiles_none (fs : List (Option (List PClass))) :
    loadProcessorsFiles (none :: fs) = none := by
  unfold loadProcessorsFiles
  simp only [List.foldl_cons]
  induction fs with
  | nil => rfl
  | cons f t ih => simpa using ih

/-- Claim C8, amended.  Per-implementation isolation holds for construction
and startup errors among successfully discovered classes: an implementation
whose instantiation throws is logged and skipped, one whose `on_startup`
throws is logged but remains registered (instance and model-type index
included), and in both cases every other discoverable implementation is
still registered and started.  A plugin FILE that raises while being
loaded, however, aborts the entire loading pass. -/
theorem c8_isolation_amended (cs : List PClass) (fs : List (Option (List PClass))) :
    (loadAllClasses cs).processors = (cs.filter (fun c => c.instOk)).map (fun c => c.cid) ∧
    (loadAllClasses cs).started =
      (cs.filter (fun c => c.instOk && c.startOk)).map (fun c => c.cid) ∧
    (loadAllClasses cs).byModel = cs.filterMap
      (fun c => if c.instOk then c.modelType.map (fun t => (t, c.cid)) else none) ∧
    (loadAllClasses cs).failures =
      (cs.filter (fun c => !(c.instOk && c.startOk))).map (fun c => c.cid) ∧
    loadAllFromFiles (none :: fs) = none := by
  have hs := loadAll_foldl_spec cs ⟨[], [], [], []⟩
  refine ⟨?_, ?_, ?_, ?_, ?_⟩
  · simpa [loadAllClasses] using hs.1
  · simpa [loadAllClasses] using hs.2.1
  · simpa [loadAllClasses] using hs.2.2.1
  · simpa [loadAllClasses] using hs.2.2.2
  · unfold loadAllFromFiles
    rw [loadProcessorsFiles_none]
    rfl

/-- One processor's bookkeeping for `ProcessorManager.shutdown`: how often
`on_shutdown` has been invoked, how often the underlying session was
actually closed, whether `_session` is currently open, and whether this
processor's `on_shutdown` raises (in which case the per-processor `except`
logs and `close()` is skipped). -/
structure ShutProc where
  shutdownCalls : Nat
  closeCalls : Nat
  sessionOpen : Bool
  shutdownThrows : Bool
deriving DecidableEq, Repr

/-- One processor's treatment inside `shutdown`'s loop
(src/processors/manager.py lines 148-153) combined with `Processor.close`
(src/processors/__init__.py lines 59-62): `on_shutdown()` runs (counted),
then, unless it raised, `close()` closes the session only when `_session`
is set and nulls it. -/
def shutProcStep (p : ShutProc) : ShutProc :=
  let p1 := { p with shutdownCalls := p.shutdownCalls + 1 }
  if p1.shutdownThrows then p1
  else if p1.sessionOpen then
    { p1 with closeCalls := p1.closeCalls + 1, sessionOpen := false }
  else p1

/-- The manager state seen by `shutdown` and the per-processor loops. -/
structure MState where
  running : Bool
  procs : List ShutProc
deriving DecidableEq, Repr

/-- Translation of `ProcessorManager.shutdown`: set `running = False`, then
run `on_shutdown` and `close` for every processor, each in its own
`try`. -/
def shutdownManager (s : MState) : MState :=
  ⟨false, s.procs.map shutProcStep⟩

/-- The `while self.running` guard at the top of `_run_processor_loop`: a
tick starts only when the flag is still set. -/
def loopTick (running : Bool) (ticks : Nat) : Nat :=
  if running then ticks + 1 else ticks

/-- Processor used for the C9 counterexample: open session, clean
`on_shutdown`. -/
def c9proc : ShutProc := ⟨0, 0, true, false⟩

/-- Claim C9, counterexample.  `shutdown()` is not idempotent: a second
call re-invokes every processor's `on_shutdown`, so after two calls the
invocation count is 2, not the claimed exactly once. -/
theorem c9_counterexample :
    shutdownManager (shutdownManager ⟨true, [c9proc]⟩) ≠ shutdownManager ⟨true, [c9proc]⟩ ∧
    ((shutdownManager (shutdownManager ⟨true, [c9proc]⟩)).procs.map
      (fun p => p.shutdownCalls)) = [2] := by
  decide

/-- Claim C9, amended.  When `shutdown()` is called exactly once (as the
process lifecycle does), every processor with a clean `on_shutdown` and an
open session has `on_shutdown` invoked and its session closed exactly once,
and no further ticks start once `running` is false; the session close is
individually idempotent (`_session` is nulled, so a second `shutdown()`
closes nothing again), but `on_shutdown` itself is re-invoked by every
additional call, which is what defeats idempotence of `shutdown()`. -/
theorem c9_shutdown_amended (ps : List ShutProc)
    (h : ∀ p ∈ ps, p.shutdownCalls = 0 ∧ p.closeCalls = 0 ∧
      p.sessionOpen = true ∧ p.shutdownThrows = false) :
    (shutdownManager ⟨true, ps⟩).running = false ∧
    (∀ p ∈ (shutdownManager ⟨true, ps⟩).procs,
      p.shutdownCalls = 1 ∧ p.closeCalls = 1 ∧ p.sessionOpen = false) ∧
    (∀ p ∈ (shutdownManager (shutdownManager ⟨true, ps⟩)).procs,
      p.shutdownCalls = 2 ∧ p.closeCalls = 1) ∧
    (∀ t, loopTick (shutdownManager ⟨true, ps⟩).running t = t) := by
  refine ⟨rfl, ?_, ?_, fun t => rfl⟩
  · intro p hp
    obtain ⟨q, hq, rfl⟩ := List.mem_map.mp hp
    obtain ⟨h1, h2, h3, h4⟩ := h q hq
    simp [shutProcStep, h1, h2, h3, h4]
  · intro p hp
    simp only [shutdownManager, List.map_map] at hp
    obtain ⟨q, hq, rfl⟩ := List.mem_map.mp hp
    obtain ⟨h1, h2, h3, h4⟩ := h q hq
    simp [shutProcStep, h1, h2, h3, h4]

/-- Witness for C9's amended statement at a single freshly started
processor. -/
theorem c9_witness :
    (shutdownManager ⟨true, [⟨0, 0, true, false⟩]⟩).running = false ∧
    (∀ p ∈ (shutdownManager ⟨true, [⟨0, 0, true, false⟩]⟩).procs,
      p.shutdownCalls = 1 ∧ p.closeCalls = 1 ∧ p.sessionOpen = false) ∧
    (∀ p ∈ (shutdownManager (shutdownManager ⟨true, [⟨0, 0, true, false⟩]⟩)).procs,
      p.shutdownCalls = 2 ∧ p.closeCalls = 1) ∧
    (∀ t, loopTick (shutdownManager ⟨true, [⟨0, 0, true, false⟩]⟩).running t = t) :=
  c9_shutdown_amended [⟨0, 0, true, false⟩] (by decide)

end Clogs
